import Mathlib

/-!
Shallow embedding of the radar-alert-sender pipeline (src/main.py): a
four-stage trading-alert state machine (discovery `ms_step`, readiness
`mr_step`, validation `mcs_step`, attack issuance `attack_step`) over a
document store, with time-of-day window gating and a per-session trade
limit.

Modelling conventions:
* Python `datetime` values are modelled structurally as `DateTime`
  (ordinal day, weekday as in `datetime.weekday()`, time-of-day fields);
  comparison is lexicographic on (day, time-of-day), which matches
  comparison of timezone-aware datetimes within one timezone.
* Firestore documents are association lists of fields (`Doc`);
  `set(..., merge=True)` is field-wise merge; `firestore.SERVER_TIMESTAMP`
  is the `Val.sentinel` placeholder, resolved at write time from the
  store's monotone `clock` counter.
* ISO-8601 timestamp strings written with `.isoformat()` and read back
  with `datetime.fromisoformat` are modelled by the structural `Val.dtv`
  (the round trip is the identity on well-formed datetimes).
* Python floats carrying scores are modelled as `Int`: in the pipeline
  they are only constructed, stored and compared.
* The strategy plug-ins (`ms_scan_market`, `mr_monitor_target`,
  `mcs_validate`) and the SMS adapter are external collaborators
  ("strategy plugins" / "alerting" in the source); they enter as function
  parameters of the stage that consults them.
-/

/-- A timezone-aware datetime, as used by the pipeline: `day` is the
ordinal date, `weekday` is `datetime.weekday()` (0 = Monday .. 6 = Sunday),
and the remaining fields are the time of day. -/
structure DateTime where
  day : Nat
  weekday : Nat
  hour : Nat
  minute : Nat
  second : Nat
  micro : Nat
deriving DecidableEq, Repr

/-- Time of day in microseconds. -/
def DateTime.tod (d : DateTime) : Nat :=
  ((d.hour * 60 + d.minute) * 60 + d.second) * 1000000 + d.micro

/-- `a <= b` on datetimes: lexicographic on (ordinal day, time of day). -/
def dtLe (a b : DateTime) : Bool :=
  decide (a.day < b.day) || (decide (a.day = b.day) && decide (a.tod ≤ b.tod))

/-- `a < b` on datetimes. -/
def dtLt (a b : DateTime) : Bool :=
  decide (a.day < b.day) || (decide (a.day = b.day) && decide (a.tod < b.tod))

/-- `dt.replace(hour=h, minute=m, second=0, microsecond=0)`. -/
def replaceHM (d : DateTime) (h m : Nat) : DateTime :=
  { d with hour := h, minute := m, second := 0, micro := 0 }

/-- `in_window(dt, start_hhmm, end_hhmm)` from the source.  The HH:MM
strings are modelled as already-parsed pairs (`parse_hhmm` splits the
string into the pair).  The source builds `start`/`end` by replacing
`dt`'s time fields and compares `start <= dt <= end`. -/
def in_window (dt : DateTime) (s e : Nat × Nat) : Bool :=
  dtLe (replaceHM dt s.1 s.2) dt && dtLe dt (replaceHM dt e.1 e.2)

/-- `is_weekday(dt)`: `dt.weekday() < 5`. -/
def is_weekday (dt : DateTime) : Bool := decide (dt.weekday < 5)

/-- `dt + timedelta(minutes=m)`: total-microsecond arithmetic with
rollover into the day (and weekday) fields. -/
def addMinutes (d : DateTime) (m : Nat) : DateTime :=
  let total := d.day * 86400000000 + d.tod + m * 60000000
  { day := total / 86400000000
    weekday := (d.weekday + (total / 86400000000 - d.day)) % 7
    hour := total % 86400000000 / 3600000000
    minute := total % 3600000000 / 60000000
    second := total % 60000000 / 1000000
    micro := total % 1000000 }

/-- The configuration surface of the pipeline (env-var driven in the
source); the defaults are the source's defaults. -/
structure Config where
  MS_START : Nat × Nat := (3, 0)
  MS_END : Nat × Nat := (19, 0)
  ATTACK_START : Nat × Nat := (8, 45)
  ATTACK_END : Nat × Nat := (15, 0)
  MAX_TRADES_PER_SESSION : Nat := 3
deriving DecidableEq, Repr

/-- A Firestore field value.  `sentinel` is `firestore.SERVER_TIMESTAMP`
inside a write request; `ts` is a resolved server timestamp; `dtv` is an
ISO-8601 datetime string, modelled structurally. -/
inductive Val where
  | s (v : String)
  | i (v : Int)
  | b (v : Bool)
  | ts (n : Nat)
  | dtv (d : DateTime)
  | sentinel
deriving DecidableEq, Repr

/-- Python truthiness of a stored value (nonempty string, nonzero number,
true boolean; datetimes and timestamps are always truthy). -/
def Val.truthy : Val → Bool
  | .s v => decide (v ≠ "")
  | .i v => decide (v ≠ 0)
  | .b v => v
  | .ts _ => true
  | .dtv _ => true
  | .sentinel => true

/-- A document: an association list of fields. -/
abbrev Doc := List (String × Val)

/-- First-match lookup in an association list (dictionary read). -/
def lookupA {κ α : Type} [BEq κ] (c : List (κ × α)) (k : κ) : Option α :=
  (c.find? (fun p => p.1 == k)).map Prod.snd

/-- Keyed write: replace the first entry with this key in place, or append
a new entry.  This is document/field update in a keyed store. -/
def insertA {κ α : Type} [BEq κ] : List (κ × α) → κ → α → List (κ × α)
  | [], k, v => [(k, v)]
  | p :: rest, k, v => if p.1 == k then (k, v) :: rest else p :: insertA rest k v

/-- Keyed delete. -/
def eraseA {κ α : Type} [BEq κ] (c : List (κ × α)) (k : κ) : List (κ × α) :=
  c.filter (fun p => !(p.1 == k))

/-- Firestore `set(doc, merge=True)`: every field present in `upd`
replaces the stored field, other fields are kept. -/
def docMerge (base upd : Doc) : Doc :=
  upd.foldl (fun acc p => insertA acc p.1 p.2) base

/-- Resolve `SERVER_TIMESTAMP` placeholders at write time. -/
def resolveDoc (clock : Nat) (d : Doc) : Doc :=
  d.map (fun p => (p.1, match p.2 with | Val.sentinel => Val.ts clock | v => v))

/-- The external document store: the `mts_targets`, `mts_active`,
`mts_users` and `mts_events` collections.  The users collection's nested
per-session counters are flattened to a map keyed by
`(user_id, session_key)`; events keep only their kind.  `clock` is the
server-timestamp source. -/
structure Store where
  targets : List (String × Doc) := []
  activePos : List (String × Doc) := []
  sessions : List ((String × String) × Nat) := []
  events : List String := []
  clock : Nat := 0
deriving DecidableEq, Repr

/-- `upsert_target(ticker, doc)`: merge-set into `mts_targets`. -/
def upsert_target (st : Store) (ticker : String) (doc : Doc) : Store :=
  let base := (lookupA st.targets ticker).getD []
  { st with targets := insertA st.targets ticker (docMerge base (resolveDoc st.clock doc))
            clock := st.clock + 1 }

/-- `get_target(ticker)`. -/
def get_target (st : Store) (ticker : String) : Option Doc :=
  lookupA st.targets ticker

/-- `list_targets(limit=200)`: a store scan capped at 200 documents.
(The source also injects the document id as field `_id`; here the id is
carried as the first component of each pair and the ticker-resolution
fallback below reads it directly.) -/
def list_targets (st : Store) : List (String × Doc) :=
  st.targets.take 200

/-- `set_active(ticker, doc)`: merge-set into `mts_active`. -/
def set_active (st : Store) (ticker : String) (doc : Doc) : Store :=
  let base := (lookupA st.activePos ticker).getD []
  { st with activePos := insertA st.activePos ticker (docMerge base (resolveDoc st.clock doc))
            clock := st.clock + 1 }

/-- `get_active(ticker)`. -/
def get_active (st : Store) (ticker : String) : Option Doc :=
  lookupA st.activePos ticker

/-- `remove_active(ticker)`. -/
def remove_active (st : Store) (ticker : String) : Store :=
  { st with activePos := eraseA st.activePos ticker }

/-- `get_user_trade_count(user_id, session_key)`: 0 when absent. -/
def get_user_trade_count (st : Store) (uid sk : String) : Nat :=
  (lookupA st.sessions (uid, sk)).getD 0

/-- `increment_user_trade(user_id, session_key)`: reads the current
count, adds one, writes the map back, returns the new count.  This is a
get-then-set sequence in the source, not an atomic server-side increment;
`incr_read`/`incr_write` below expose the two phases. -/
def increment_user_trade (st : Store) (uid sk : String) : Nat × Store :=
  let cur := get_user_trade_count st uid sk
  let c := cur + 1
  (c, { st with sessions := insertA st.sessions (uid, sk) c, clock := st.clock + 1 })

/-- The read phase of `increment_user_trade` (`ref.get()` and the
dictionary lookup). -/
def incr_read (st : Store) (uid sk : String) : Nat :=
  get_user_trade_count st uid sk

/-- The write phase of `increment_user_trade` (`ref.set(..., merge=True)`
of the updated sessions map built from a previously read count). -/
def incr_write (st : Store) (uid sk : String) (cur : Nat) : Nat × Store :=
  (cur + 1, { st with sessions := insertA st.sessions (uid, sk) (cur + 1), clock := st.clock + 1 })

/-- `log_event(kind, payload)`: best-effort audit append (only the kind is
retained in the model). -/
def log_event (st : Store) (kind : String) : Store :=
  { st with events := st.events ++ [kind], clock := st.clock + 1 }

/-- `str.upper()` on the ASCII tickers this pipeline handles, as a
structurally computable map (the stock `String.toUpper` does not reduce
in the kernel). -/
def pyUpper (s : String) : String := ⟨s.data.map Char.toUpper⟩

/-- `str.strip()`: drop whitespace from both ends. -/
def pyStrip (s : String) : String :=
  ⟨((s.data.dropWhile Char.isWhitespace).reverse.dropWhile Char.isWhitespace).reverse⟩

/-- `t.get(key, default)` followed by Python truthiness (the pattern
`if not t.get("active", True)` / `if not t.get("mcs_pass", False)`). -/
def pyGetD (d : Doc) (k : String) (dflt : Bool) : Bool :=
  match lookupA d k with
  | some v => v.truthy
  | none => dflt

/-- `(t.get("ticker") or t.get("_id") or "").upper()`: the stored ticker
field when it is a truthy string, else the document id, uppercased.
(A non-string truthy ticker field would raise in the source; target docs
written by this pipeline always store the ticker as a string.) -/
def tickerOf (id : String) (d : Doc) : String :=
  let t1 := match lookupA d "ticker" with
    | some (Val.s v) => v
    | _ => ""
  pyUpper (if t1 = "" then id else t1)

/-- `active_state.get("status") in ("ATTACK_ISSUED", "ACTIVE")`. -/
def statusActive (a : Doc) : Bool :=
  match lookupA a "status" with
  | some (Val.s x) => decide (x = "ATTACK_ISSUED") || decide (x = "ACTIVE")
  | _ => false

/-- Truthiness of `get_active(ticker)` (a possibly-absent dictionary:
absent or empty is falsy). -/
def docTruthy : Option Doc → Bool
  | some d => decide (d ≠ [])
  | none => false

/-- The per-stage result dictionary: `ran`, an optional `reason`, and the
stage's count field (`candidates` / `updated` / `validated` / `issued`). -/
structure StepResult where
  ran : Bool
  reason : String := ""
  count : Nat := 0
deriving DecidableEq, Repr

/-- A discovery candidate as returned by the `ms_scan_market` plug-in. -/
structure Candidate where
  ticker : String
  bias : String := "LONG"
  ms_score : Int := 0
  reason : String := ""
deriving DecidableEq, Repr

/-- The readiness oracle's result (`mr_monitor_target`). -/
structure MrRes where
  mr_ready : Bool
  mr_score : Int
  mr_note : String
  expires_at : DateTime
deriving DecidableEq, Repr

/-- The validation oracle's result (`mcs_validate`). -/
structure McsRes where
  mcs_pass : Bool
  mcs_score : Int
  regime : String
  why : String
deriving DecidableEq, Repr

/-- The weapon-selection payload (`choose_weapon`). -/
structure Weapon where
  weapon : String
  direction : String
  entry_zone : String
  stop : String
  exit_trigger : String
  confidence : Int
deriving DecidableEq, Repr

/-- The notifier adapter's result dictionary (`send_sms`). -/
structure SmsRes where
  ok : Bool
  skipped : Bool
deriving DecidableEq, Repr

/-- The unconfigured-Twilio path of `send_sms`: skips the send and
reports a non-ok, skipped result without raising. -/
def send_sms_skip : String → SmsRes := fun _ => { ok := false, skipped := true }

/-- `session_key_for_user(dt)`: the calendar-day key
(`dt.strftime("%Y-%m-%d")`), injective in the ordinal day. -/
def session_key_for_user (dt : DateTime) : String := toString dt.day

/-- `can_issue_attack_now(dt)`: weekday and inside the attack window. -/
def can_issue_attack_now (cfg : Config) (dt : DateTime) : Bool :=
  is_weekday dt && in_window dt cfg.ATTACK_START cfg.ATTACK_END

/-- The target document written per candidate by the Discovery stage.
Note `first_seen_at` is unconditionally part of the merged write. -/
def msDoc (c : Candidate) (ticker : String) : Doc :=
  [("ticker", Val.s ticker), ("bias", Val.s c.bias), ("ms_score", Val.i c.ms_score),
   ("ms_reason", Val.s c.reason), ("state", Val.s "DISCOVERED"),
   ("updated_at", Val.sentinel), ("first_seen_at", Val.sentinel), ("active", Val.b true)]

/-- `ms_step(dt)`: the Discovery stage.  Gated on weekday and the MS
window; upserts one target per candidate from the scan plug-in. -/
def ms_step (cfg : Config) (dt : DateTime) (scan : List Candidate) (st : Store) :
    StepResult × Store :=
  if !(is_weekday dt && in_window dt cfg.MS_START cfg.MS_END) then
    ({ ran := false, reason := "Outside MS window" }, st)
  else
    let out := scan.foldl (fun acc c =>
      let ticker := pyStrip (pyUpper c.ticker)
      (upsert_target acc.1 ticker (msDoc c ticker), acc.2 + 1)) (st, 0)
    ({ ran := true, count := out.2 }, log_event out.1 "ms_step")

/-- The stand-down write sequence of the Readiness stage for an expired
active position: delete the Active Position, mark the Target
REMOVED/inactive, record the audit event. -/
def standDown (st : Store) (ticker : String) : Store :=
  log_event
    (upsert_target (remove_active st ticker) ticker
      [("state", Val.s "REMOVED"), ("active", Val.b false), ("updated_at", Val.sentinel)])
    "mr_secondary_remove"

/-- The merged fields written by the Readiness stage's oracle path. -/
def mrDoc (r : MrRes) : Doc :=
  [("state", Val.s "MONITORING"), ("mr_ready", Val.b r.mr_ready),
   ("mr_score", Val.i r.mr_score), ("mr_note", Val.s r.mr_note),
   ("expires_at", Val.dtv r.expires_at), ("updated_at", Val.sentinel)]

/-- Truthiness of the fetched active-position dictionary combined with
the status test: `active_state and active_state.get("status") in
("ATTACK_ISSUED", "ACTIVE")`. -/
def activeBranch (o : Option Doc) : Bool :=
  match o with
  | some a => docTruthy (some a) && statusActive a
  | none => false

/-- `active_state.get("expires_at")` of a fetched active position. -/
def expiresOf (o : Option Doc) : Option Val :=
  o.bind (fun a => lookupA a "expires_at")

/-- One iteration of the Readiness stage loop.  For a ticker whose active
position is in status ATTACK_ISSUED/ACTIVE: stand down when `dt` is past
`expires_at`, else leave everything untouched, and in both cases skip the
oracle path (the source's `continue`; its dangling `try:` at the expiry
parse, which has no handler, is embedded as the straight-line body on
well-typed values).  Otherwise invoke the readiness oracle and merge its
fields with `state=MONITORING`. -/
def mr_processOne (dt : DateTime) (oracle : Doc → MrRes) (acc : Store × Nat)
    (p : String × Doc) : Store × Nat :=
  if pyGetD p.2 "active" true = false then acc
  else if tickerOf p.1 p.2 = "" then acc
  else if activeBranch (get_active acc.1 (tickerOf p.1 p.2)) then
    match expiresOf (get_active acc.1 (tickerOf p.1 p.2)) with
    | some (Val.dtv e) =>
      if dtLt e dt then (standDown acc.1 (tickerOf p.1 p.2), acc.2) else acc
    | _ => acc
  else
    (upsert_target acc.1 (tickerOf p.1 p.2) (mrDoc (oracle p.2)), acc.2 + 1)

/-- `mr_step(dt)`: the Readiness stage.  Not window-gated: iterates the
capped target scan unconditionally. -/
def mr_step (dt : DateTime) (oracle : Doc → MrRes) (st : Store) : StepResult × Store :=
  let out := (list_targets st).foldl (mr_processOne dt oracle) (st, 0)
  ({ ran := true, count := out.2 }, log_event out.1 "mr_step")

/-- The merged fields written by the Validation stage. -/
def mcsDoc (v : McsRes) : Doc :=
  [("state", Val.s (if v.mcs_pass then "VALIDATED" else "REJECTED")),
   ("mcs_pass", Val.b v.mcs_pass), ("mcs_score", Val.i v.mcs_score),
   ("regime", Val.s v.regime), ("why", Val.s v.why), ("updated_at", Val.sentinel)]

/-- One iteration of the Validation stage loop: skip inactive targets,
empty tickers and targets without a truthy `mr_ready`; validate the rest
through the oracle and merge the verdict. -/
def mcs_processOne (oracle : Doc → McsRes) (acc : Store × Nat) (p : String × Doc) :
    Store × Nat :=
  if pyGetD p.2 "active" true = false then acc
  else if tickerOf p.1 p.2 = "" then acc
  else if pyGetD p.2 "mr_ready" false = false then acc
  else
    (upsert_target acc.1 (tickerOf p.1 p.2) (mcsDoc (oracle p.2)), acc.2 + 1)

/-- `mcs_step(dt)`: the Validation stage.  Not window-gated; `dt` is
threaded through but (as in the source) unused by the stage body. -/
def mcs_step (dt : DateTime) (oracle : Doc → McsRes) (st : Store) : StepResult × Store :=
  let out := (list_targets st).foldl (mcs_processOne oracle) (st, 0)
  ({ ran := true, count := out.2 }, log_event out.1 "mcs_step")

/-- `choose_weapon(t)`: POE for the three index ETFs, else PEE; direction
from the stored bias; demo entry/stop/exit; confidence clamped to 1..99
from the stored validation score (default 50 when absent). -/
def choose_weapon (t : Doc) : Weapon :=
  let ticker := match lookupA t "ticker" with
    | some (Val.s v) => v
    | _ => ""
  let direction := match lookupA t "bias" with
    | some (Val.s v) => v
    | _ => "LONG"
  let sc : Int := match lookupA t "mcs_score" with
    | some (Val.i v) => v
    | _ => 50
  { weapon := if ticker = "SPY" ∨ ticker = "QQQ" ∨ ticker = "IWM" then "POE" else "PEE"
    direction := direction
    entry_zone := "DemoEntry"
    stop := "DemoStop"
    exit_trigger := "DemoExit"
    confidence := min 99 (max 1 sc) }

/-- The Active Position document written when an attack is issued. -/
def attackActiveDoc (dt : DateTime) (ticker : String) (payload : Weapon) (t : Doc) : Doc :=
  [("ticker", Val.s ticker), ("status", Val.s "ATTACK_ISSUED"),
   ("issued_at", Val.dtv dt), ("expires_at", Val.dtv (addMinutes dt 20)),
   ("weapon", Val.s payload.weapon), ("direction", Val.s payload.direction),
   ("entry_zone", Val.s payload.entry_zone), ("stop", Val.s payload.stop),
   ("exit_trigger", Val.s payload.exit_trigger), ("confidence", Val.i payload.confidence),
   ("regime", (lookupA t "regime").getD (Val.s "HUNT"))]

/-- The alert body formatted by the Attack stage. -/
def sms_body (ticker : String) (payload : Weapon) : String :=
  "MTS ATTACK | " ++ ticker ++ " | " ++ payload.direction ++ " | " ++ payload.weapon ++
  " | Entry:" ++ payload.entry_zone ++ " Stop:" ++ payload.stop ++
  " Exit:" ++ payload.exit_trigger ++ " | Conf:" ++ toString payload.confidence

/-- The write sequence of one issued attack: create the Active Position,
mark the Target ATTACK_ISSUED, increment the session counter, send the
alert (result only logged), record the audit event. -/
def attack_issue (dt : DateTime) (uid sess : String) (notif : String → SmsRes)
    (p : String × Doc) (ticker : String) (st : Store) : Store :=
  let payload := choose_weapon p.2
  let st1 := set_active st ticker (attackActiveDoc dt ticker payload p.2)
  let st2 := upsert_target st1 ticker [("state", Val.s "ATTACK_ISSUED"), ("updated_at", Val.sentinel)]
  let st3 := (increment_user_trade st2 uid sess).2
  let _sms := notif (sms_body ticker payload)
  log_event st3 "attack_issued"

/-- The Attack stage's issuance loop over the capped target scan: break
once the issued count reaches the remaining budget `maxT - count`; skip
inactive targets, targets without a truthy `mcs_pass`, empty tickers and
tickers that already have a (truthy) Active Position; issue otherwise. -/
def attack_loop (dt : DateTime) (maxT : Nat) (uid sess : String)
    (notif : String → SmsRes) (count : Nat) :
    List (String × Doc) → Store → Nat → Store × Nat
  | [], st, issued => (st, issued)
  | p :: rest, st, issued =>
    if maxT - count ≤ issued then (st, issued)
    else if pyGetD p.2 "active" true = false then
      attack_loop dt maxT uid sess notif count rest st issued
    else if pyGetD p.2 "mcs_pass" false = false then
      attack_loop dt maxT uid sess notif count rest st issued
    else
      let ticker := tickerOf p.1 p.2
      if ticker = "" then attack_loop dt maxT uid sess notif count rest st issued
      else if docTruthy (get_active st ticker) then
        attack_loop dt maxT uid sess notif count rest st issued
      else
        attack_loop dt maxT uid sess notif count rest
          (attack_issue dt uid sess notif p ticker st) (issued + 1)

/-- `attack_step(dt, user_id)`: gated on the attack window and weekday;
returns a not-run result when the window is closed or when the session
count has already reached the limit; otherwise runs the issuance loop. -/
def attack_step (cfg : Config) (dt : DateTime) (uid : String)
    (notif : String → SmsRes) (st : Store) : StepResult × Store :=
  if !(can_issue_attack_now cfg dt) then
    ({ ran := false, reason := "Outside attack window" }, st)
  else
    let sess := session_key_for_user dt
    let count := get_user_trade_count st uid sess
    if cfg.MAX_TRADES_PER_SESSION ≤ count then
      ({ ran := false, reason := "Trade limit reached" }, st)
    else
      let out := attack_loop dt cfg.MAX_TRADES_PER_SESSION uid sess notif count
        (list_targets st) st 0
      ({ ran := true, count := out.2 }, out.1)

/-- `tick()`: the pipeline MS -> MR -> MCS -> Attack with a single
captured timestamp, threading the store through the four stages. -/
def tick (cfg : Config) (dt : DateTime) (scan : List Candidate)
    (mrO : Doc → MrRes) (mcsO : Doc → McsRes) (notif : String → SmsRes)
    (st : Store) : (StepResult × StepResult × StepResult × StepResult) × Store :=
  let o1 := ms_step cfg dt scan st
  let o2 := mr_step dt mrO o1.2
  let o3 := mcs_step dt mcsO o2.2
  let o4 := attack_step cfg dt "broadcast" notif o3.2
  ((o1.1, o2.1, o3.1, o4.1), o4.2)

/-- A weekday timestamp (Monday) at 09:00:00, inside both windows. -/
def dtMonday9 : DateTime := ⟨738526, 0, 9, 0, 0, 0⟩

/-- A Saturday timestamp at 09:00:00. -/
def dtSat9 : DateTime := ⟨738531, 5, 9, 0, 0, 0⟩

/-- A weekday timestamp at 16:00:00, past the attack window. -/
def dt4pm : DateTime := ⟨738526, 0, 16, 0, 0, 0⟩

/-- The demo discovery candidate from the source's placeholder scan. -/
def demoCand : Candidate := { ticker := "SPY", bias := "LONG", ms_score := 78, reason := "Demo candidate" }

/-- A fixed readiness oracle for concrete evaluations. -/
def demoMr : Doc → MrRes :=
  fun _ => { mr_ready := true, mr_score := 78, mr_note := "Demo MR monitoring", expires_at := dtMonday9 }

/-- A fixed validation oracle for concrete evaluations. -/
def demoMcs : Doc → McsRes :=
  fun _ => { mcs_pass := true, mcs_score := 78, regime := "HUNT", why := "Demo MCS validation" }

/-- The reading of `in_window` asserted by the specification: the
time-of-day, at minute granularity, lies within [start, end], so that the
whole start minute and the whole end minute count as inside. -/
def spec_in_window (dt : DateTime) (s e : Nat × Nat) : Bool :=
  decide (s.1 * 60 + s.2 ≤ dt.hour * 60 + dt.minute) &&
  decide (dt.hour * 60 + dt.minute ≤ e.1 * 60 + e.2)

/-- `tick()` under the fallible-adapter embedding: the source wraps none
of the four stage calls in try/except, so a stage exception propagates
out of the orchestrator; the stages appear as arguments because their
failure modes come from the external store/notifier adapters. -/
def tick_fallible (msf mrf mcsf atkf : Store → Except String (StepResult × Store))
    (st : Store) :
    Except String ((StepResult × StepResult × StepResult × StepResult) × Store) := do
  let o1 ← msf st
  let o2 ← mrf o1.2
  let o3 ← mcsf o2.2
  let o4 ← atkf o3.2
  pure ((o1.1, o2.1, o3.1, o4.1), o4.2)

/-- The Attack stage's issuance loop under the fallible-notifier
embedding: the source has no try/except around `send_sms`, so a raising
send propagates after the position write, the target update and the
counter increment have already been committed; the error value carries
the store as committed at the raise. -/
def attack_loopF (dt : DateTime) (maxT : Nat) (uid sess : String)
    (notif : String → Except String SmsRes) (count : Nat) :
    List (String × Doc) → Store → Nat → Except (String × Store) (Store × Nat)
  | [], st, issued => Except.ok (st, issued)
  | p :: rest, st, issued =>
    if maxT - count ≤ issued then Except.ok (st, issued)
    else if pyGetD p.2 "active" true = false then
      attack_loopF dt maxT uid sess notif count rest st issued
    else if pyGetD p.2 "mcs_pass" false = false then
      attack_loopF dt maxT uid sess notif count rest st issued
    else
      let ticker := tickerOf p.1 p.2
      if ticker = "" then attack_loopF dt maxT uid sess notif count rest st issued
      else if docTruthy (get_active st ticker) then
        attack_loopF dt maxT uid sess notif count rest st issued
      else
        let payload := choose_weapon p.2
        let st1 := set_active st ticker (attackActiveDoc dt ticker payload p.2)
        let st2 := upsert_target st1 ticker
          [("state", Val.s "ATTACK_ISSUED"), ("updated_at", Val.sentinel)]
        let st3 := (increment_user_trade st2 uid sess).2
        match notif (sms_body ticker payload) with
        | Except.error m => Except.error (m, st3)
        | Except.ok _ =>
          attack_loopF dt maxT uid sess notif count rest
            (log_event st3 "attack_issued") (issued + 1)

/-- `attack_step` under the fallible-notifier embedding. -/
def attack_stepF (cfg : Config) (dt : DateTime) (uid : String)
    (notif : String → Except String SmsRes) (st : Store) :
    Except (String × Store) (StepResult × Store) :=
  if !(can_issue_attack_now cfg dt) then
    Except.ok ({ ran := false, reason := "Outside attack window" }, st)
  else
    let sess := session_key_for_user dt
    let count := get_user_trade_count st uid sess
    if cfg.MAX_TRADES_PER_SESSION ≤ count then
      Except.ok ({ ran := false, reason := "Trade limit reached" }, st)
    else
      match attack_loopF dt cfg.MAX_TRADES_PER_SESSION uid sess notif count
        (list_targets st) st 0 with
      | Except.error m => Except.error m
      | Except.ok out => Except.ok ({ ran := true, count := out.2 }, out.1)

/-- A validated target document eligible for attack. -/
def tgtDoc (tk : String) : Doc :=
  [("ticker", Val.s tk), ("active", Val.b true), ("mr_ready", Val.b true),
   ("mcs_pass", Val.b true), ("state", Val.s "VALIDATED")]

/-- A store holding two attack-eligible targets. -/
def stTwoEligible : Store := { targets := [("T1", tgtDoc "T1"), ("T2", tgtDoc "T2")] }

/-- C8: with two eligible targets and a notifier that raises, the Attack
stage aborts at the first send instead of logging and continuing: the
result is the propagated error, yet the first attack's writes remain
committed (Active Position for T1 in status ATTACK_ISSUED, target T1
marked, counter at 1) while T2 is never evaluated (no Active Position,
target document unchanged). -/
def attack_stepF_on_two : Except (String × Store) (StepResult × Store) :=
  attack_stepF {} dtMonday9 "broadcast" (fun _ => Except.error "twilio down") stTwoEligible

/-- The propagated error message, when the stage aborted. -/
def abortMsg : Option String :=
  match attack_stepF_on_two with
  | Except.error ms => some ms.1
  | Except.ok _ => none

/-- The store as committed at the point the notifier raised. -/
def stAfterAbort : Store :=
  match attack_stepF_on_two with
  | Except.error ms => ms.2
  | Except.ok o => o.2

/-- Eligibility of a scanned target for attack issuance, relative to a
store: a truthy `active`, a truthy `mcs_pass`, a nonempty resolved ticker
and no (truthy) existing Active Position for that ticker. -/
def eligibleTarget (st : Store) (p : String × Doc) : Bool :=
  pyGetD p.2 "active" true && pyGetD p.2 "mcs_pass" false &&
  decide (tickerOf p.1 p.2 ≠ "") && !(docTruthy (get_active st (tickerOf p.1 p.2)))

/-- The number of attack-eligible targets in the capped scan. -/
def eligibleCount (st : Store) : Nat := (list_targets st).countP (eligibleTarget st)

/-- A store with 200 scanned targets and one more target beyond the scan
cap. -/
def stBeyondCap : Store :=
  { targets := List.replicate 200 ("AAA", tgtDoc "AAA") ++ [("BBB", tgtDoc "BBB")] }

/-- The expiry recorded on the demo active position (Monday 09:20). -/
def dtExpirySPY : DateTime := ⟨738526, 0, 9, 20, 0, 0⟩

/-- Monday 10:00, past the demo expiry. -/
def dtMon10 : DateTime := ⟨738526, 0, 10, 0, 0, 0⟩

/-- An attacked target document. -/
def spyTarget : Doc :=
  [("ticker", Val.s "SPY"), ("active", Val.b true), ("state", Val.s "ATTACK_ISSUED")]

/-- The corresponding Active Position, expired at `dtMon10`. -/
def spyActive : Doc :=
  [("ticker", Val.s "SPY"), ("status", Val.s "ATTACK_ISSUED"),
   ("expires_at", Val.dtv dtExpirySPY)]

/-- A store with one attacked target and its expired Active Position. -/
def stExpired : Store :=
  { targets := [("SPY", spyTarget)], activePos := [("SPY", spyActive)] }

theorem lookupA_insertA {κ α : Type} [BEq κ] [LawfulBEq κ] [DecidableEq κ]
    (c : List (κ × α)) (k k' : κ) (v : α) :
    lookupA (insertA c k v) k' = if k' = k then some v else lookupA c k' := by
  induction c with
  | nil =>
    by_cases h : k' = k
    · simp [insertA, lookupA, List.find?, h]
    · have hb : (k == k') = false := by
        simp
        intro hx
        exact h hx.symm
      simp [insertA, lookupA, List.find?, h, hb]
  | cons p rest ih =>
    by_cases hp : p.1 = k
    · subst hp
      by_cases h : k' = p.1
      · subst h
        simp [insertA, lookupA, List.find?]
      · have hb : (p.1 == k') = false := by
          simp
          intro hx
          exact h hx.symm
        simp [insertA, lookupA, List.find?, hb, h]
    · have hpb : (p.1 == k) = false := by simp [hp]
      by_cases h : k' = p.1
      · subst h
        simp [insertA, lookupA, List.find?, hpb, hp]
      · have hb : (p.1 == k') = false := by
          simp
          intro hx
          exact h hx.symm
        simp only [insertA, hpb, cond_false, Bool.false_eq_true, if_neg, lookupA,
          List.find?, hb] at ih ⊢
        simpa using ih

theorem lookupA_eraseA {κ α : Type} [BEq κ] [LawfulBEq κ] [DecidableEq κ]
    (c : List (κ × α)) (k k' : κ) :
    lookupA (eraseA c k) k' = if k' = k then none else lookupA c k' := by
  induction c with
  | nil => by_cases h : k' = k <;> simp [eraseA, lookupA, List.find?, h]
  | cons p rest ih =>
    by_cases hpk : p.1 = k
    · have e1 : eraseA (p :: rest) k = eraseA rest k := by
        simp [eraseA, List.filter_cons, hpk]
      rw [e1, ih]
      by_cases h : k' = k
      · simp [h]
      · have hb2 : (p.1 == k') = false := by
          simp
          intro hx
          exact h (hx.symm.trans hpk)
        simp [lookupA, List.find?, hb2, h]
    · have e1 : eraseA (p :: rest) k = p :: eraseA rest k := by
        simp [eraseA, List.filter_cons, hpk]
      rw [e1]
      by_cases h2 : k' = p.1
      · subst h2
        simp [lookupA, List.find?, hpk]
      · have hb2 : (p.1 == k') = false := by
          simp
          intro hx
          exact h2 hx.symm
        have l1 : lookupA (p :: eraseA rest k) k' = lookupA (eraseA rest k) k' := by
          simp [lookupA, List.find?, hb2]
        have l2 : lookupA (p :: rest) k' = lookupA rest k' := by
          simp [lookupA, List.find?, hb2]
        rw [l1, l2, ih]

theorem lookupA_insertA_self {κ α : Type} [BEq κ] [LawfulBEq κ] [DecidableEq κ]
    (c : List (κ × α)) (k : κ) (v : α) : lookupA (insertA c k v) k = some v := by
  rw [lookupA_insertA]
  simp

theorem lookupA_insertA_ne {κ α : Type} [BEq κ] [LawfulBEq κ] [DecidableEq κ]
    (c : List (κ × α)) (k k' : κ) (v : α) (h : k' ≠ k) :
    lookupA (insertA c k v) k' = lookupA c k' := by
  rw [lookupA_insertA]
  simp [h]

theorem get_user_trade_count_upsert_target (st : Store) (t : String) (d : Doc)
    (uid sk : String) :
    get_user_trade_count (upsert_target st t d) uid sk = get_user_trade_count st uid sk := rfl

theorem get_user_trade_count_set_active (st : Store) (t : String) (d : Doc)
    (uid sk : String) :
    get_user_trade_count (set_active st t d) uid sk = get_user_trade_count st uid sk := rfl

theorem get_user_trade_count_log_event (st : Store) (k : String) (uid sk : String) :
    get_user_trade_count (log_event st k) uid sk = get_user_trade_count st uid sk := rfl

theorem get_user_trade_count_increment_self (st : Store) (uid sk : String) :
    get_user_trade_count (increment_user_trade st uid sk).2 uid sk =
      get_user_trade_count st uid sk + 1 := by
  unfold increment_user_trade get_user_trade_count
  simp [lookupA_insertA_self]

theorem get_active_upsert_target (st : Store) (t : String) (d : Doc) (t' : String) :
    get_active (upsert_target st t d) t' = get_active st t' := rfl

theorem get_active_log_event (st : Store) (k : String) (t' : String) :
    get_active (log_event st k) t' = get_active st t' := rfl

theorem get_active_increment (st : Store) (uid sk : String) (t' : String) :
    get_active (increment_user_trade st uid sk).2 t' = get_active st t' := rfl

theorem get_active_set_active (st : Store) (t : String) (d : Doc) (t' : String) :
    get_active (set_active st t d) t' =
      if t' = t then some (docMerge ((lookupA st.activePos t).getD []) (resolveDoc st.clock d))
      else get_active st t' := by
  unfold set_active get_active
  exact lookupA_insertA st.activePos t t' _

theorem get_active_remove_active (st : Store) (t t' : String) :
    get_active (remove_active st t) t' = if t' = t then none else get_active st t' := by
  unfold remove_active get_active
  exact lookupA_eraseA st.activePos t t'

theorem get_target_upsert_target (st : Store) (t : String) (d : Doc) (t' : String) :
    get_target (upsert_target st t d) t' =
      if t' = t then some (docMerge ((lookupA st.targets t).getD []) (resolveDoc st.clock d))
      else get_target st t' := by
  unfold upsert_target get_target
  exact lookupA_insertA st.targets t t' _

theorem get_target_set_active (st : Store) (t : String) (d : Doc) (t' : String) :
    get_target (set_active st t d) t' = get_target st t' := rfl

theorem get_target_remove_active (st : Store) (t t' : String) :
    get_target (remove_active st t) t' = get_target st t' := rfl

theorem get_target_log_event (st : Store) (k : String) (t' : String) :
    get_target (log_event st k) t' = get_target st t' := rfl

theorem get_target_increment (st : Store) (uid sk : String) (t' : String) :
    get_target (increment_user_trade st uid sk).2 t' = get_target st t' := rfl

/-- C4 counterexample: at 15:00:30 with the default attack window
08:45-15:00, the claim places the timestamp inside the window (it lies in
the exact end minute), but `in_window` compares against the end instant
15:00:00.000000 and returns false. -/
theorem in_window_end_minute_counterexample :
    in_window ⟨0, 0, 15, 0, 30, 0⟩ (8, 45) (15, 0) = false ∧
    spec_in_window ⟨0, 0, 15, 0, 30, 0⟩ (8, 45) (15, 0) = true := by decide

/-- C4 amended: `in_window` is true iff the time-of-day (at microsecond
precision) lies within the closed interval from the start instant
HH:MM:00.000000 to the end instant HH:MM:00.000000.  Consequently every
second of the start minute is inside, but within the end minute only the
exact instant :00.000000 is inside. -/
theorem in_window_iff_tod (dt : DateTime) (s e : Nat × Nat) :
    in_window dt s e = true ↔
      ((s.1 * 60 + s.2) * 60000000 ≤ dt.tod ∧ dt.tod ≤ (e.1 * 60 + e.2) * 60000000) := by
  simp [in_window, dtLe, replaceHM, DateTime.tod]
  omega

/-- C5: `ms_step` puts `first_seen_at = SERVER_TIMESTAMP` into every
merged upsert, so a second discovery of the same ticker overwrites the
originally recorded `first_seen_at` with a fresh server timestamp,
contradicting the set-only-if-absent contract.  Concretely: discovering
SPY in two consecutive ticks stores two different `first_seen_at`
values. -/
theorem first_seen_at_overwritten_on_rediscovery :
    (get_target (ms_step {} dtMonday9 [demoCand] {}).2 "SPY").bind
        (fun d => lookupA d "first_seen_at") = some (Val.ts 0) ∧
    (get_target (ms_step {} dtMonday9 [demoCand] (ms_step {} dtMonday9 [demoCand] {}).2).2 "SPY").bind
        (fun d => lookupA d "first_seen_at") = some (Val.ts 2) ∧
    (Val.ts 0 : Val) ≠ Val.ts 2 := by decide

/-- C9: `increment_user_trade` is the get-then-set sequence
`incr_write ∘ incr_read`, not an atomic server-side increment, and the
canonical interleaving of two concurrent calls (both read before either
writes) loses an update: both callers are told count `c + 1` and the
stored counter ends at `c + 1` instead of `c + 2`, so two concurrent
attack issuances can jointly exceed the session maximum. -/
theorem increment_user_trade_not_atomic (st : Store) (uid sk : String) :
    increment_user_trade st uid sk = incr_write st uid sk (incr_read st uid sk) ∧
    (incr_write st uid sk (incr_read st uid sk)).1 = get_user_trade_count st uid sk + 1 ∧
    (incr_write (incr_write st uid sk (incr_read st uid sk)).2 uid sk (incr_read st uid sk)).1 =
      get_user_trade_count st uid sk + 1 ∧
    get_user_trade_count
        (incr_write (incr_write st uid sk (incr_read st uid sk)).2 uid sk (incr_read st uid sk)).2
        uid sk = get_user_trade_count st uid sk + 1 := by
  refine ⟨rfl, rfl, rfl, ?_⟩
  unfold incr_write incr_read get_user_trade_count
  simp [lookupA_insertA_self]

/-- C7: if the Discovery stage raises, `tick` yields the propagated error
rather than a summary with a failed-stage entry, and for every possible
behaviour of the three downstream stages they are never run (the result
is independent of them and contains none of their entries). -/
theorem tick_fallible_propagates (e : String)
    (mrf mcsf atkf : Store → Except String (StepResult × Store)) (st : Store) :
    tick_fallible (fun _ => Except.error e) mrf mcsf atkf st = Except.error e := rfl

theorem attack_send_failure_aborts_stage :
    abortMsg = some "twilio down" ∧
    statusActive ((get_active stAfterAbort "T1").getD []) = true ∧
    get_active stAfterAbort "T2" = none ∧
    get_user_trade_count stAfterAbort "broadcast" (session_key_for_user dtMonday9) = 1 ∧
    get_target stAfterAbort "T2" = some (tgtDoc "T2") := by decide

/-- C2: whenever the Attack stage is gated off — the captured timestamp
is outside the attack window or on a weekend, or the remaining budget
`maxTrades - count` is zero or negative — it returns a not-run result and
the returned store is exactly the input store: no Active Position, no
target write, no counter change, no event. -/
theorem attack_step_not_run (cfg : Config) (dt : DateTime) (uid : String)
    (notif : String → SmsRes) (st : Store)
    (h : can_issue_attack_now cfg dt = false ∨
         cfg.MAX_TRADES_PER_SESSION ≤ get_user_trade_count st uid (session_key_for_user dt)) :
    (attack_step cfg dt uid notif st).1.ran = false ∧
    (attack_step cfg dt uid notif st).2 = st := by
  unfold attack_step
  rcases h with h | h
  · simp [h]
  · by_cases hg : can_issue_attack_now cfg dt
    · simp [hg, h]
    · simp [hg]

/-- C2 witness: the spec's concrete scenario — a weekday at 16:00, past
the attack window — returns not-run and an unchanged (empty) store. -/
theorem attack_step_not_run_witness :
    (attack_step {} dt4pm "broadcast" send_sms_skip {}).1.ran = false ∧
    (attack_step {} dt4pm "broadcast" send_sms_skip {}).2 = {} :=
  attack_step_not_run {} dt4pm "broadcast" send_sms_skip {} (Or.inl (by decide))

/-- C6: only Discovery (and Attack, see the attack-stage gating theorem)
are window-gated.  Outside the monitoring window or on a weekend,
Discovery returns not-run with zero upserts and an unchanged store, while
Readiness and Validation return a ran result for every timestamp and
every store (they have no window guard at all). -/
theorem window_gating_asymmetry (cfg : Config) (dt : DateTime) (scan : List Candidate)
    (st : Store)
    (h : (is_weekday dt && in_window dt cfg.MS_START cfg.MS_END) = false) :
    ms_step cfg dt scan st = ({ ran := false, reason := "Outside MS window" }, st) ∧
    (∀ (dt2 : DateTime) (o : Doc → MrRes) (st2 : Store), (mr_step dt2 o st2).1.ran = true) ∧
    (∀ (dt3 : DateTime) (o : Doc → McsRes) (st3 : Store), (mcs_step dt3 o st3).1.ran = true) := by
  refine ⟨?_, fun _ _ _ => rfl, fun _ _ _ => rfl⟩
  unfold ms_step
  simp [h]

/-- C6 witness: a Saturday at 09:00 — Discovery does not run and writes
nothing even with a nonempty candidate scan, while Readiness and
Validation still run. -/
theorem window_gating_asymmetry_witness :
    ms_step {} dtSat9 [demoCand] {} = ({ ran := false, reason := "Outside MS window" }, {}) ∧
    (mr_step dtSat9 demoMr {}).1.ran = true ∧
    (mcs_step dtSat9 demoMcs {}).1.ran = true :=
  ⟨(window_gating_asymmetry {} dtSat9 [demoCand] {} (by decide)).1,
   (window_gating_asymmetry {} dtSat9 [demoCand] {} (by decide)).2.1 dtSat9 demoMr {},
   (window_gating_asymmetry {} dtSat9 [demoCand] {} (by decide)).2.2 dtSat9 demoMcs {}⟩

theorem insertA_ne_nil {κ α : Type} [BEq κ] (c : List (κ × α)) (k : κ) (v : α) :
    insertA c k v ≠ [] := by
  cases c with
  | nil => simp [insertA]
  | cons p rest =>
    by_cases h : (p.1 == k) = true <;> simp [insertA, h]

theorem docMerge_ne_nil_of_upd (b : Doc) (u : Doc) (h : u ≠ []) : docMerge b u ≠ [] := by
  cases u with
  | nil => exact absurd rfl h
  | cons x u' =>
    rw [docMerge, List.foldl_cons]
    have : ∀ (u2 : List (String × Val)) (c : Doc), c ≠ [] →
        u2.foldl (fun acc p => insertA acc p.1 p.2) c ≠ [] := by
      intro u2
      induction u2 with
      | nil => intro c hc; simpa using hc
      | cons y u3 ih =>
        intro c _
        rw [List.foldl_cons]
        exact ih _ (insertA_ne_nil c y.1 y.2)
    exact this u' _ (insertA_ne_nil b x.1 x.2)

theorem counter_attack_issue (dt : DateTime) (uid sess : String)
    (notif : String → SmsRes) (p : String × Doc) (tk : String) (st : Store) :
    get_user_trade_count (attack_issue dt uid sess notif p tk st) uid sess =
      get_user_trade_count st uid sess + 1 := by
  unfold attack_issue
  rw [get_user_trade_count_log_event, get_user_trade_count_increment_self,
    get_user_trade_count_upsert_target, get_user_trade_count_set_active]

theorem active_truthy_attack_issue (dt : DateTime) (uid sess : String)
    (notif : String → SmsRes) (p : String × Doc) (tk tk' : String) (st : Store)
    (h : docTruthy (get_active st tk') = true) :
    docTruthy (get_active (attack_issue dt uid sess notif p tk st) tk') = true := by
  unfold attack_issue
  rw [get_active_log_event, get_active_increment, get_active_upsert_target,
    get_active_set_active]
  by_cases he : tk' = tk
  · rw [if_pos he]
    simp only [docTruthy, decide_eq_true_eq]
    exact docMerge_ne_nil_of_upd _ _ (by simp [resolveDoc, attackActiveDoc])
  · rwa [if_neg he]

theorem eligible_mono_attack_issue (dt : DateTime) (uid sess : String)
    (notif : String → SmsRes) (p : String × Doc) (tk : String) (st : Store)
    (q : String × Doc)
    (h : eligibleTarget (attack_issue dt uid sess notif p tk st) q = true) :
    eligibleTarget st q = true := by
  unfold eligibleTarget at *
  simp only [Bool.and_eq_true, Bool.not_eq_true'] at *
  refine ⟨h.1, ?_⟩
  by_cases hx : docTruthy (get_active st (tickerOf q.1 q.2)) = true
  · exact absurd (active_truthy_attack_issue dt uid sess notif p tk _ st hx)
      (by simp [h.2])
  · simpa using hx

theorem attack_loop_spec (dt : DateTime) (maxT : Nat) (uid sess : String)
    (notif : String → SmsRes) (count : Nat) :
    ∀ (l : List (String × Doc)) (st : Store) (issued : Nat),
    ∃ k,
      (attack_loop dt maxT uid sess notif count l st issued).2 = issued + k ∧
      get_user_trade_count (attack_loop dt maxT uid sess notif count l st issued).1 uid sess =
        get_user_trade_count st uid sess + k ∧
      k ≤ l.countP (eligibleTarget st) ∧
      (issued + k ≤ maxT - count ∨ k = 0) := by
  intro l
  induction l with
  | nil =>
    intro st issued
    exact ⟨0, rfl, by simp [attack_loop], by simp, Or.inr rfl⟩
  | cons p rest ih =>
    intro st issued
    rw [attack_loop]
    by_cases h1 : maxT - count ≤ issued
    · rw [if_pos h1]
      exact ⟨0, rfl, by simp, by simp, Or.inr rfl⟩
    · rw [if_neg h1]
      by_cases h2 : pyGetD p.2 "active" true = false
      · rw [if_pos h2]
        obtain ⟨k, hk1, hk2, hk3, hk4⟩ := ih st issued
        exact ⟨k, hk1, hk2, le_trans hk3 (by simp [List.countP_cons]), hk4⟩
      · rw [if_neg h2]
        by_cases h3 : pyGetD p.2 "mcs_pass" false = false
        · rw [if_pos h3]
          obtain ⟨k, hk1, hk2, hk3, hk4⟩ := ih st issued
          exact ⟨k, hk1, hk2, le_trans hk3 (by simp [List.countP_cons]), hk4⟩
        · rw [if_neg h3]
          by_cases h4 : tickerOf p.1 p.2 = ""
          · simp only [h4, if_pos rfl]
            obtain ⟨k, hk1, hk2, hk3, hk4⟩ := ih st issued
            exact ⟨k, hk1, hk2, le_trans hk3 (by simp [List.countP_cons]), hk4⟩
          · rw [if_neg h4]
            by_cases h5 : docTruthy (get_active st (tickerOf p.1 p.2)) = true
            · rw [if_pos h5]
              obtain ⟨k, hk1, hk2, hk3, hk4⟩ := ih st issued
              exact ⟨k, hk1, hk2, le_trans hk3 (by simp [List.countP_cons]), hk4⟩
            · rw [if_neg h5]
              obtain ⟨k, hk1, hk2, hk3, hk4⟩ :=
                ih (attack_issue dt uid sess notif p (tickerOf p.1 p.2) st) (issued + 1)
              refine ⟨k + 1, by omega, ?_, ?_, ?_⟩
              · rw [hk2, counter_attack_issue]
                omega
              · have hm : rest.countP
                    (eligibleTarget (attack_issue dt uid sess notif p (tickerOf p.1 p.2) st)) ≤
                    rest.countP (eligibleTarget st) := by
                  apply List.countP_mono_left
                  intro q _ hq
                  exact eligible_mono_attack_issue dt uid sess notif p (tickerOf p.1 p.2) st q hq
                have he : eligibleTarget st p = true := by
                  unfold eligibleTarget
                  simp only [Bool.and_eq_true, Bool.not_eq_true', decide_eq_true_eq]
                  refine ⟨⟨⟨?_, ?_⟩, h4⟩, ?_⟩
                  · cases hx : pyGetD p.2 "active" true
                    · exact absurd hx h2
                    · rfl
                  · cases hx : pyGetD p.2 "mcs_pass" false
                    · exact absurd hx h3
                    · rfl
                  · cases hx : docTruthy (get_active st (tickerOf p.1 p.2))
                    · rfl
                    · exact absurd hx h5
                rw [List.countP_cons, he]
                simp only [eq_self_iff_true, if_true]
                omega
              · rcases hk4 with hk4 | hk4
                · exact Or.inl (by omega)
                · exact Or.inl (by omega)

/-- C1: for every tick, store and acting user, with c the session count
already recorded for the session key of the captured timestamp, the
Attack stage issues at most min(eligible targets, maxTrades - c) attacks
(the loop breaks once the remaining budget is reached), and the session
counter after the stage equals c plus the number of attacks issued. -/
theorem attack_step_budget (cfg : Config) (dt : DateTime) (uid : String)
    (notif : String → SmsRes) (st : Store) :
    (attack_step cfg dt uid notif st).1.count ≤
      min (eligibleCount st)
        (cfg.MAX_TRADES_PER_SESSION - get_user_trade_count st uid (session_key_for_user dt)) ∧
    get_user_trade_count (attack_step cfg dt uid notif st).2 uid (session_key_for_user dt) =
      get_user_trade_count st uid (session_key_for_user dt) +
        (attack_step cfg dt uid notif st).1.count := by
  unfold attack_step
  by_cases hg : can_issue_attack_now cfg dt
  · by_cases hl : cfg.MAX_TRADES_PER_SESSION ≤
        get_user_trade_count st uid (session_key_for_user dt)
    · simp [hg, hl]
    · obtain ⟨k, hk1, hk2, hk3, hk4⟩ := attack_loop_spec dt cfg.MAX_TRADES_PER_SESSION uid
        (session_key_for_user dt) notif
        (get_user_trade_count st uid (session_key_for_user dt)) (list_targets st) st 0
      simp only [hg, Bool.not_true, Bool.false_eq_true, if_false, hl, if_neg hl]
      constructor
      · apply le_min
        · simpa [eligibleCount, hk1] using hk3
        · rcases hk4 with h | h
          · simpa [hk1] using h
          · simp [hk1, h]
      · simpa [hk1] using hk2
  · simp [hg]

theorem target_frame_standDown (st : Store) (t tk : String) (h : t ≠ tk) :
    get_target (standDown st t) tk = get_target st tk := by
  unfold standDown
  rw [get_target_log_event, get_target_upsert_target, if_neg (fun hx => h hx.symm),
    get_target_remove_active]

theorem active_frame_standDown (st : Store) (t tk : String) (h : t ≠ tk) :
    get_active (standDown st t) tk = get_active st tk := by
  unfold standDown
  rw [get_active_log_event, get_active_upsert_target, get_active_remove_active,
    if_neg (fun hx => h hx.symm)]

theorem mr_processOne_frame (dt : DateTime) (o : Doc → MrRes) (acc : Store × Nat)
    (p : String × Doc) (tk : String) (h : tickerOf p.1 p.2 ≠ tk) :
    get_target (mr_processOne dt o acc p).1 tk = get_target acc.1 tk ∧
    get_active (mr_processOne dt o acc p).1 tk = get_active acc.1 tk := by
  unfold mr_processOne
  split
  · exact ⟨rfl, rfl⟩
  · split
    · exact ⟨rfl, rfl⟩
    · split
      · split
        · split
          · exact ⟨target_frame_standDown _ _ _ h, active_frame_standDown _ _ _ h⟩
          · exact ⟨rfl, rfl⟩
        · exact ⟨rfl, rfl⟩
      · constructor
        · rw [get_target_upsert_target, if_neg (Ne.symm h)]
        · rw [get_active_upsert_target]

theorem mr_fold_frame (dt : DateTime) (o : Doc → MrRes) (tk : String) :
    ∀ (l : List (String × Doc)) (acc : Store × Nat),
    (∀ p ∈ l, tickerOf p.1 p.2 ≠ tk) →
    get_target (l.foldl (mr_processOne dt o) acc).1 tk = get_target acc.1 tk ∧
    get_active (l.foldl (mr_processOne dt o) acc).1 tk = get_active acc.1 tk := by
  intro l
  induction l with
  | nil => exact fun acc _ => ⟨rfl, rfl⟩
  | cons p rest ih =>
    intro acc hall
    rw [List.foldl_cons]
    have h1 := mr_processOne_frame dt o acc p tk (hall p (by simp))
    have h2 := ih (mr_processOne dt o acc p) (fun q hq => hall q (by simp [hq]))
    exact ⟨h2.1.trans h1.1, h2.2.trans h1.2⟩

theorem mcs_processOne_frame (o : Doc → McsRes) (acc : Store × Nat)
    (p : String × Doc) (tk : String) (h : tickerOf p.1 p.2 ≠ tk) :
    get_target (mcs_processOne o acc p).1 tk = get_target acc.1 tk ∧
    get_active (mcs_processOne o acc p).1 tk = get_active acc.1 tk := by
  unfold mcs_processOne
  split
  · exact ⟨rfl, rfl⟩
  · split
    · exact ⟨rfl, rfl⟩
    · split
      · exact ⟨rfl, rfl⟩
      · constructor
        · rw [get_target_upsert_target, if_neg (Ne.symm h)]
        · rw [get_active_upsert_target]

theorem mcs_fold_frame (o : Doc → McsRes) (tk : String) :
    ∀ (l : List (String × Doc)) (acc : Store × Nat),
    (∀ p ∈ l, tickerOf p.1 p.2 ≠ tk) →
    get_target (l.foldl (mcs_processOne o) acc).1 tk = get_target acc.1 tk ∧
    get_active (l.foldl (mcs_processOne o) acc).1 tk = get_active acc.1 tk := by
  intro l
  induction l with
  | nil => exact fun acc _ => ⟨rfl, rfl⟩
  | cons p rest ih =>
    intro acc hall
    rw [List.foldl_cons]
    have h1 := mcs_processOne_frame o acc p tk (hall p (by simp))
    have h2 := ih (mcs_processOne o acc p) (fun q hq => hall q (by simp [hq]))
    exact ⟨h2.1.trans h1.1, h2.2.trans h1.2⟩

theorem attack_issue_frame (dt : DateTime) (uid sess : String) (notif : String → SmsRes)
    (p : String × Doc) (t tk : String) (h : t ≠ tk) (st : Store) :
    get_target (attack_issue dt uid sess notif p t st) tk = get_target st tk ∧
    get_active (attack_issue dt uid sess notif p t st) tk = get_active st tk := by
  unfold attack_issue
  constructor
  · rw [get_target_log_event, get_target_increment, get_target_upsert_target,
      if_neg (fun hx => h hx.symm), get_target_set_active]
  · rw [get_active_log_event, get_active_increment, get_active_upsert_target,
      get_active_set_active, if_neg (fun hx => h hx.symm)]

theorem attack_loop_frame (dt : DateTime) (maxT : Nat) (uid sess : String)
    (notif : String → SmsRes) (count : Nat) (tk : String) :
    ∀ (l : List (String × Doc)) (st : Store) (issued : Nat),
    (∀ p ∈ l, tickerOf p.1 p.2 ≠ tk) →
    get_target (attack_loop dt maxT uid sess notif count l st issued).1 tk = get_target st tk ∧
    get_active (attack_loop dt maxT uid sess notif count l st issued).1 tk = get_active st tk := by
  intro l
  induction l with
  | nil => exact fun st issued _ => ⟨rfl, rfl⟩
  | cons p rest ih =>
    intro st issued hall
    rw [attack_loop]
    by_cases h1 : maxT - count ≤ issued
    · simp [h1]
    · rw [if_neg h1]
      by_cases h2 : pyGetD p.2 "active" true = false
      · rw [if_pos h2]
        exact ih st issued (fun q hq => hall q (by simp [hq]))
      · rw [if_neg h2]
        by_cases h3 : pyGetD p.2 "mcs_pass" false = false
        · rw [if_pos h3]
          exact ih st issued (fun q hq => hall q (by simp [hq]))
        · rw [if_neg h3]
          by_cases h4 : tickerOf p.1 p.2 = ""
          · simp only [h4, if_pos rfl]
            exact ih st issued (fun q hq => hall q (by simp [hq]))
          · rw [if_neg h4]
            by_cases h5 : docTruthy (get_active st (tickerOf p.1 p.2)) = true
            · rw [if_pos h5]
              exact ih st issued (fun q hq => hall q (by simp [hq]))
            · rw [if_neg h5]
              have hfr := attack_issue_frame dt uid sess notif p (tickerOf p.1 p.2) tk
                (hall p (by simp)) st
              have h6 := ih (attack_issue dt uid sess notif p (tickerOf p.1 p.2) st)
                (issued + 1) (fun q hq => hall q (by simp [hq]))
              exact ⟨h6.1.trans hfr.1, h6.2.trans hfr.2⟩

/-- C10: every stage reads its targets through the scan capped at 200
documents, so a target stored beyond the first 200 — even one that is
active, validated and attack-eligible — is excluded from the scan and is
never monitored, validated or attacked in the tick: the Readiness,
Validation and Attack stages leave its target document and its (absent)
Active Position untouched. -/
theorem scan_cap_never_processes_beyond_200 (st : Store) (tk : String) (d : Doc)
    (cfg : Config) (dt dt2 dt3 : DateTime) (uid : String)
    (mrO : Doc → MrRes) (mcsO : Doc → McsRes) (notif : String → SmsRes)
    (Hmem : (tk, d) ∈ st.targets.drop 200)
    (Hfield : lookupA d "ticker" = some (Val.s tk))
    (Hupper : pyUpper tk = tk)
    (Hactive : pyGetD d "active" true = true)
    (Hmcs : pyGetD d "mcs_pass" false = true)
    (Hfr : ∀ p ∈ list_targets st, tickerOf p.1 p.2 ≠ tk) :
    (tk, d) ∉ list_targets st ∧
    get_target (mr_step dt mrO st).2 tk = get_target st tk ∧
    get_active (mr_step dt mrO st).2 tk = get_active st tk ∧
    get_target (mcs_step dt2 mcsO st).2 tk = get_target st tk ∧
    get_target (attack_step cfg dt3 uid notif st).2 tk = get_target st tk ∧
    get_active (attack_step cfg dt3 uid notif st).2 tk = get_active st tk := by
  refine ⟨?_, ?_, ?_, ?_, ?_, ?_⟩
  · intro hmem
    apply Hfr _ hmem
    unfold tickerOf
    rw [Hfield]
    simp [ite_self, Hupper]
  · unfold mr_step
    simp only [get_target_log_event]
    exact (mr_fold_frame dt mrO tk (list_targets st) (st, 0) Hfr).1
  · unfold mr_step
    simp only [get_active_log_event]
    exact (mr_fold_frame dt mrO tk (list_targets st) (st, 0) Hfr).2
  · unfold mcs_step
    simp only [get_target_log_event]
    exact (mcs_fold_frame mcsO tk (list_targets st) (st, 0) Hfr).1
  · unfold attack_step
    by_cases hg : can_issue_attack_now cfg dt3
    · by_cases hl : cfg.MAX_TRADES_PER_SESSION ≤
          get_user_trade_count st uid (session_key_for_user dt3)
      · simp [hg, hl]
      · simp only [hg, Bool.not_true, Bool.false_eq_true, if_false, if_neg hl]
        exact (attack_loop_frame dt3 cfg.MAX_TRADES_PER_SESSION uid
          (session_key_for_user dt3) notif
          (get_user_trade_count st uid (session_key_for_user dt3)) tk
          (list_targets st) st 0 Hfr).1
    · simp [hg]
  · unfold attack_step
    by_cases hg : can_issue_attack_now cfg dt3
    · by_cases hl : cfg.MAX_TRADES_PER_SESSION ≤
          get_user_trade_count st uid (session_key_for_user dt3)
      · simp [hg, hl]
      · simp only [hg, Bool.not_true, Bool.false_eq_true, if_false, if_neg hl]
        exact (attack_loop_frame dt3 cfg.MAX_TRADES_PER_SESSION uid
          (session_key_for_user dt3) notif
          (get_user_trade_count st uid (session_key_for_user dt3)) tk
          (list_targets st) st 0 Hfr).2
    · simp [hg]

set_option maxRecDepth 40000 in
/-- C10 witness: the eligible target BBB sits at position 201, is
excluded from the capped scan, and the three iterating stages leave its
documents untouched. -/
theorem scan_cap_never_processes_beyond_200_witness :
    ("BBB", tgtDoc "BBB") ∉ list_targets stBeyondCap ∧
    get_target (mr_step dtMonday9 demoMr stBeyondCap).2 "BBB" =
      get_target stBeyondCap "BBB" ∧
    get_active (mr_step dtMonday9 demoMr stBeyondCap).2 "BBB" =
      get_active stBeyondCap "BBB" ∧
    get_target (mcs_step dtMonday9 demoMcs stBeyondCap).2 "BBB" =
      get_target stBeyondCap "BBB" ∧
    get_target (attack_step {} dtMonday9 "broadcast" send_sms_skip stBeyondCap).2 "BBB" =
      get_target stBeyondCap "BBB" ∧
    get_active (attack_step {} dtMonday9 "broadcast" send_sms_skip stBeyondCap).2 "BBB" =
      get_active stBeyondCap "BBB" :=
  scan_cap_never_processes_beyond_200 stBeyondCap "BBB" (tgtDoc "BBB") {}
    dtMonday9 dtMonday9 dtMonday9 "broadcast" demoMr demoMcs send_sms_skip
    (by decide) (by decide) (by decide) (by decide) (by decide) (by decide)

theorem statusActive_ne_nil (a : Doc) (h : statusActive a = true) : a ≠ [] := by
  intro hx
  subst hx
  simp [statusActive, lookupA, List.find?] at h

theorem tickerOf_own (id tk : String) (d : Doc)
    (hf : lookupA d "ticker" = some (Val.s tk)) (hne : tk ≠ "")
    (hup : pyUpper tk = tk) : tickerOf id d = tk := by
  unfold tickerOf
  rw [hf]
  simp [hne, hup]

theorem mem_of_lookupA {κ α : Type} [BEq κ] [LawfulBEq κ] (c : List (κ × α)) (k : κ)
    (v : α) (h : lookupA c k = some v) : (k, v) ∈ c := by
  induction c with
  | nil => simp [lookupA, List.find?] at h
  | cons p rest ih =>
    by_cases hp : (p.1 == k) = true
    · have h1 : p.1 = k := by simpa using hp
      simp only [lookupA, List.find?, hp, Option.map_some'] at h
      have h2 : (k, v) = p := by
        rw [← h1, ← Option.some.inj h]
      exact h2 ▸ List.mem_cons_self p rest
    · simp only [lookupA, List.find?, hp] at h
      exact List.mem_cons_of_mem p (ih h)

theorem lookupA_of_mem_nodup {α : Type} (c : List (String × α)) (k : String) (v : α)
    (hn : (c.map Prod.fst).Nodup) (h : (k, v) ∈ c) : lookupA c k = some v := by
  induction c with
  | nil => simp at h
  | cons p rest ih =>
    rcases List.mem_cons.mp h with h1 | h1
    · rw [← h1]
      simp [lookupA, List.find?]
    · have hk : k ∈ rest.map Prod.fst := List.mem_map.mpr ⟨(k, v), h1, rfl⟩
      have hp : p.1 ≠ k := by
        intro hx
        exact (List.nodup_cons.mp hn).1 (hx ▸ hk)
      have hpb : (p.1 == k) = false := by simp [hp]
      simp only [lookupA, List.find?, hpb]
      exact ih (List.nodup_cons.mp hn).2 h1

theorem keys_insertA_mem {α : Type} (c : List (String × α)) (k : String) (v : α)
    (h : k ∈ c.map Prod.fst) : (insertA c k v).map Prod.fst = c.map Prod.fst := by
  induction c with
  | nil => simp at h
  | cons p rest ih =>
    by_cases hp : (p.1 == k) = true
    · have h1 : p.1 = k := by simpa using hp
      simp [insertA, hp, h1]
    · have h1 : p.1 ≠ k := by simpa using hp
      have hk : k ∈ rest.map Prod.fst := by
        rcases List.mem_map.mp h with ⟨q, hq, hfst⟩
        rcases List.mem_cons.mp hq with h2 | h2
        · exact absurd (h2 ▸ hfst) h1
        · exact List.mem_map.mpr ⟨q, h2, hfst⟩
      simp [insertA, hp, ih hk]

theorem mem_insertA {κ α : Type} [BEq κ] (c : List (κ × α)) (k : κ) (v : α)
    (q : κ × α) (h : q ∈ insertA c k v) : q = (k, v) ∨ q ∈ c := by
  induction c with
  | nil =>
    simp [insertA] at h
    exact Or.inl h
  | cons p rest ih =>
    by_cases hp : (p.1 == k) = true
    · simp only [insertA, hp, if_true] at h
      rcases List.mem_cons.mp h with h1 | h1
      · exact Or.inl h1
      · exact Or.inr (List.mem_cons_of_mem p h1)
    · simp only [insertA, hp, Bool.false_eq_true, if_false] at h
      rcases List.mem_cons.mp h with h1 | h1
      · exact Or.inr (h1 ▸ List.mem_cons_self p rest)
      · rcases ih h1 with h2 | h2
        · exact Or.inl h2
        · exact Or.inr (List.mem_cons_of_mem p h2)

theorem lookupA_docMerge_frame (u : Doc) (k : String) (h : ∀ q ∈ u, q.1 ≠ k) :
    ∀ b : Doc, lookupA (docMerge b u) k = lookupA b k := by
  induction u with
  | nil => intro b; rfl
  | cons x u' ih =>
    intro b
    rw [docMerge, List.foldl_cons, ← docMerge]
    rw [ih (fun q hq => h q (List.mem_cons_of_mem x hq))]
    exact lookupA_insertA_ne b x.1 k x.2 (fun hx => h x (List.mem_cons_self x u') (hx ▸ rfl))

theorem resolveDoc_keys_ne (cl : Nat) (u : Doc) (k : String)
    (h : ∀ q ∈ u, q.1 ≠ k) : ∀ q ∈ resolveDoc cl u, q.1 ≠ k := by
  intro q hq
  unfold resolveDoc at hq
  rcases List.mem_map.mp hq with ⟨x, hx, hxe⟩
  rw [← hxe]
  exact h x hx

theorem standDown_active_self (st : Store) (tk : String) :
    get_active (standDown st tk) tk = none := by
  unfold standDown
  rw [get_active_log_event, get_active_upsert_target, get_active_remove_active, if_pos rfl]

theorem standDown_target_fields (st : Store) (tk : String) :
    (get_target (standDown st tk) tk).bind (fun d => lookupA d "state") =
      some (Val.s "REMOVED") ∧
    (get_target (standDown st tk) tk).bind (fun d => lookupA d "active") =
      some (Val.b false) := by
  unfold standDown
  rw [get_target_log_event, get_target_upsert_target, if_pos rfl]
  have hres : resolveDoc (remove_active st tk).clock
      [("state", Val.s "REMOVED"), ("active", Val.b false), ("updated_at", Val.sentinel)] =
      [("state", Val.s "REMOVED"), ("active", Val.b false),
       ("updated_at", Val.ts (remove_active st tk).clock)] := by
    simp [resolveDoc]
  rw [hres]
  have hm : ∀ b : Doc,
      docMerge b [("state", Val.s "REMOVED"), ("active", Val.b false),
        ("updated_at", Val.ts (remove_active st tk).clock)] =
      insertA (insertA (insertA b "state" (Val.s "REMOVED")) "active" (Val.b false))
        "updated_at" (Val.ts (remove_active st tk).clock) := by
    intro b
    simp [docMerge]
  rw [hm]
  constructor
  · rw [Option.some_bind,
      lookupA_insertA_ne _ _ _ _ (by decide),
      lookupA_insertA_ne _ _ _ _ (by decide),
      lookupA_insertA_self]
  · rw [Option.some_bind,
      lookupA_insertA_ne _ _ _ _ (by decide),
      lookupA_insertA_self]

theorem exists_lookupA_of_mem_keys {α : Type} (c : List (String × α)) (k : String)
    (h : k ∈ c.map Prod.fst) : ∃ v, lookupA c k = some v := by
  induction c with
  | nil => simp at h
  | cons p rest ih =>
    by_cases hp : (p.1 == k) = true
    · exact ⟨p.2, by simp [lookupA, List.find?, hp]⟩
    · have h1 : p.1 ≠ k := by simpa using hp
      have hk : k ∈ rest.map Prod.fst := by
        rcases List.mem_map.mp h with ⟨q, hq, hfst⟩
        rcases List.mem_cons.mp hq with h2 | h2
        · exact absurd (h2 ▸ hfst) h1
        · exact List.mem_map.mpr ⟨q, h2, hfst⟩
      obtain ⟨v, hv⟩ := ih hk
      refine ⟨v, ?_⟩
      simpa [lookupA, List.find?, hp] using hv

theorem upsert_target_inv (st : Store) (t : String) (u : Doc)
    (hk : t ∈ st.targets.map Prod.fst)
    (htf : ∀ p ∈ st.targets, lookupA p.2 "ticker" = some (Val.s p.1))
    (hu : ∀ q ∈ u, q.1 ≠ "ticker") :
    (upsert_target st t u).targets.map Prod.fst = st.targets.map Prod.fst ∧
    (∀ p ∈ (upsert_target st t u).targets, lookupA p.2 "ticker" = some (Val.s p.1)) := by
  constructor
  · exact keys_insertA_mem st.targets t _ hk
  · intro p hp
    rcases mem_insertA st.targets t _ p hp with h1 | h1
    · subst h1
      rw [lookupA_docMerge_frame _ _ (resolveDoc_keys_ne _ _ _ hu)]
      obtain ⟨b, hb⟩ := exists_lookupA_of_mem_keys st.targets t hk
      rw [hb]
      simp only [Option.getD_some]
      exact htf (t, b) (mem_of_lookupA _ _ _ hb)
    · exact htf p h1

theorem mr_processOne_inv (dt : DateTime) (o : Doc → MrRes) (acc : Store × Nat)
    (p : String × Doc)
    (hpt : tickerOf p.1 p.2 ∈ acc.1.targets.map Prod.fst)
    (htf : ∀ q ∈ acc.1.targets, lookupA q.2 "ticker" = some (Val.s q.1)) :
    (mr_processOne dt o acc p).1.targets.map Prod.fst = acc.1.targets.map Prod.fst ∧
    (∀ q ∈ (mr_processOne dt o acc p).1.targets,
      lookupA q.2 "ticker" = some (Val.s q.1)) := by
  unfold mr_processOne
  split
  · exact ⟨rfl, htf⟩
  · split
    · exact ⟨rfl, htf⟩
    · split
      · split
        · split
          · exact upsert_target_inv (remove_active acc.1 (tickerOf p.1 p.2))
              (tickerOf p.1 p.2) _ hpt htf (by simp)
          · exact ⟨rfl, htf⟩
        · exact ⟨rfl, htf⟩
      · exact upsert_target_inv acc.1 (tickerOf p.1 p.2) _ hpt htf (by simp [mrDoc])

theorem mr_fold_inv (dt : DateTime) (o : Doc → MrRes) :
    ∀ (l : List (String × Doc)) (acc : Store × Nat),
    (∀ p ∈ l, tickerOf p.1 p.2 ∈ acc.1.targets.map Prod.fst) →
    (∀ q ∈ acc.1.targets, lookupA q.2 "ticker" = some (Val.s q.1)) →
    (l.foldl (mr_processOne dt o) acc).1.targets.map Prod.fst =
      acc.1.targets.map Prod.fst ∧
    (∀ q ∈ (l.foldl (mr_processOne dt o) acc).1.targets,
      lookupA q.2 "ticker" = some (Val.s q.1)) := by
  intro l
  induction l with
  | nil => exact fun acc _ htf => ⟨rfl, htf⟩
  | cons p rest ih =>
    intro acc hall htf
    rw [List.foldl_cons]
    have h1 := mr_processOne_inv dt o acc p (hall p (by simp)) htf
    have h2 := ih (mr_processOne dt o acc p)
      (fun q hq => h1.1 ▸ hall q (by simp [hq])) h1.2
    exact ⟨h2.1.trans h1.1, h2.2⟩

theorem mr_processOne_skip_or_frame (dt : DateTime) (o : Doc → MrRes)
    (acc : Store × Nat) (p : String × Doc) (tk : String)
    (h : pyGetD p.2 "active" true = false ∨ tickerOf p.1 p.2 ≠ tk) :
    get_target (mr_processOne dt o acc p).1 tk = get_target acc.1 tk ∧
    get_active (mr_processOne dt o acc p).1 tk = get_active acc.1 tk := by
  rcases h with h | h
  · unfold mr_processOne
    rw [if_pos h]
    exact ⟨rfl, rfl⟩
  · exact mr_processOne_frame dt o acc p tk h

theorem mr_fold_skip_or_frame (dt : DateTime) (o : Doc → MrRes) (tk : String) :
    ∀ (l : List (String × Doc)) (acc : Store × Nat),
    (∀ p ∈ l, pyGetD p.2 "active" true = false ∨ tickerOf p.1 p.2 ≠ tk) →
    get_target (l.foldl (mr_processOne dt o) acc).1 tk = get_target acc.1 tk ∧
    get_active (l.foldl (mr_processOne dt o) acc).1 tk = get_active acc.1 tk := by
  intro l
  induction l with
  | nil => exact fun acc _ => ⟨rfl, rfl⟩
  | cons p rest ih =>
    intro acc hall
    rw [List.foldl_cons]
    have h1 := mr_processOne_skip_or_frame dt o acc p tk (hall p (by simp))
    have h2 := ih (mr_processOne dt o acc p) (fun q hq => hall q (by simp [hq]))
    exact ⟨h2.1.trans h1.1, h2.2.trans h1.2⟩

theorem mr_step_noop (dt : DateTime) (o : Doc → MrRes) (s : Store) (tk : String)
    (h : ∀ p ∈ list_targets s, pyGetD p.2 "active" true = false ∨ tickerOf p.1 p.2 ≠ tk) :
    get_target (mr_step dt o s).2 tk = get_target s tk ∧
    get_active (mr_step dt o s).2 tk = get_active s tk := by
  unfold mr_step
  constructor
  · simp only [get_target_log_event]
    exact (mr_fold_skip_or_frame dt o tk (list_targets s) (s, 0) h).1
  · simp only [get_active_log_event]
    exact (mr_fold_skip_or_frame dt o tk (list_targets s) (s, 0) h).2

/-- C3: for a scanned, active target whose ticker has an Active Position
in status ATTACK_ISSUED or ACTIVE with a recorded expiry: when the tick's
captured timestamp is past `expires_at`, the Readiness stage deletes the
Active Position and sets the target to `state=REMOVED, active=false`, and
a further Readiness run (any timestamp, any oracle) leaves that ticker's
documents untouched; when the position is unexpired, the stage leaves the
target document and the Active Position exactly as they were — in both
cases the conclusion holds for every readiness oracle, so the oracle is
never consulted for that ticker. -/
theorem mr_step_active_position (dt : DateTime) (o : Doc → MrRes) (st : Store)
    (tk : String) (d0 a : Doc) (e : DateTime)
    (HW : ∀ p ∈ st.targets, lookupA p.2 "ticker" = some (Val.s p.1) ∧
      pyUpper p.1 = p.1 ∧ p.1 ≠ "")
    (HN : (st.targets.map Prod.fst).Nodup)
    (Hmem : (tk, d0) ∈ list_targets st)
    (Hact : pyGetD d0 "active" true = true)
    (Hpos : get_active st tk = some a)
    (Hst : statusActive a = true)
    (Hexp : lookupA a "expires_at" = some (Val.dtv e)) :
    (dtLt e dt = true →
      get_active (mr_step dt o st).2 tk = none ∧
      (get_target (mr_step dt o st).2 tk).bind (fun d => lookupA d "state") =
        some (Val.s "REMOVED") ∧
      (get_target (mr_step dt o st).2 tk).bind (fun d => lookupA d "active") =
        some (Val.b false) ∧
      (∀ (dt2 : DateTime) (o2 : Doc → MrRes),
        get_target (mr_step dt2 o2 (mr_step dt o st).2).2 tk =
          get_target (mr_step dt o st).2 tk ∧
        get_active (mr_step dt2 o2 (mr_step dt o st).2).2 tk =
          get_active (mr_step dt o st).2 tk)) ∧
    (dtLt e dt = false →
      get_target (mr_step dt o st).2 tk = some d0 ∧
      get_active (mr_step dt o st).2 tk = some a) := by
  have Hsub : ∀ p ∈ list_targets st, p ∈ st.targets :=
    fun p hp => List.take_subset 200 st.targets hp
  have Hw0 := HW (tk, d0) (Hsub _ Hmem)
  have Htk : tickerOf tk d0 = tk := tickerOf_own tk tk d0 Hw0.1 Hw0.2.2 Hw0.2.1
  have HNl : ((list_targets st).map Prod.fst).Nodup :=
    List.Nodup.sublist (List.Sublist.map Prod.fst (List.take_sublist 200 st.targets)) HN
  obtain ⟨l1, l2, Hdec⟩ := List.append_of_mem Hmem
  have Hne12 : ∀ p, (p ∈ l1 ∨ p ∈ l2) → tickerOf p.1 p.2 ≠ tk := by
    intro p hp
    have hpmem : p ∈ list_targets st := by
      rw [Hdec]
      rcases hp with hp | hp
      · exact List.mem_append_left _ hp
      · exact List.mem_append_right _ (List.mem_cons_of_mem _ hp)
    have hw := HW p (Hsub _ hpmem)
    rw [tickerOf_own p.1 p.1 p.2 hw.1 hw.2.2 hw.2.1]
    have HNl' := HNl
    rw [Hdec] at HNl'
    simp only [List.map_append, List.map_cons] at HNl'
    intro hx
    rcases hp with hp | hp
    · have h1 : p.1 ∈ l1.map Prod.fst := List.mem_map.mpr ⟨p, hp, rfl⟩
      have h2 := (List.nodup_append.mp HNl').2.2
      exact h2 h1 (hx ▸ List.mem_cons_self tk (l2.map Prod.fst))
    · have h1 : p.1 ∈ l2.map Prod.fst := List.mem_map.mpr ⟨p, hp, rfl⟩
      have h2 := (List.nodup_append.mp HNl').2.1
      exact (List.nodup_cons.mp h2).1 (hx ▸ h1)
  have Hfr1 := mr_fold_frame dt o tk l1 (st, 0) (fun p hp => Hne12 p (Or.inl hp))
  have Hga1 : get_active (l1.foldl (mr_processOne dt o) (st, 0)).1 tk = some a :=
    Hfr1.2.trans Hpos
  have hanil : a ≠ [] := statusActive_ne_nil a Hst
  have Hmid : mr_processOne dt o (l1.foldl (mr_processOne dt o) (st, 0)) (tk, d0) =
      (if dtLt e dt then
        (standDown (l1.foldl (mr_processOne dt o) (st, 0)).1 tk,
          (l1.foldl (mr_processOne dt o) (st, 0)).2)
      else l1.foldl (mr_processOne dt o) (st, 0)) := by
    simp only [mr_processOne, Htk, Hact, Bool.true_eq_false, if_false, Hw0.2.2, Hga1,
      activeBranch, docTruthy, hanil, Hst, Bool.and_self, if_true, expiresOf,
      Option.some_bind, Hexp, ne_eq, decide_not]
    simp
  have Hfold : (list_targets st).foldl (mr_processOne dt o) (st, 0) =
      l2.foldl (mr_processOne dt o)
        (mr_processOne dt o (l1.foldl (mr_processOne dt o) (st, 0)) (tk, d0)) := by
    rw [Hdec, List.foldl_append, List.foldl_cons]
  have Hstep : (mr_step dt o st).2 =
      log_event ((list_targets st).foldl (mr_processOne dt o) (st, 0)).1 "mr_step" := rfl
  constructor
  · intro hlt
    have Hmid2 : mr_processOne dt o (l1.foldl (mr_processOne dt o) (st, 0)) (tk, d0) =
        (standDown (l1.foldl (mr_processOne dt o) (st, 0)).1 tk,
          (l1.foldl (mr_processOne dt o) (st, 0)).2) := by
      rw [Hmid, if_pos hlt]
    have Hfr2 := mr_fold_frame dt o tk l2
      (standDown (l1.foldl (mr_processOne dt o) (st, 0)).1 tk,
        (l1.foldl (mr_processOne dt o) (st, 0)).2)
      (fun p hp => Hne12 p (Or.inr hp))
    have Hga : get_active (mr_step dt o st).2 tk = none := by
      rw [Hstep, get_active_log_event, Hfold, Hmid2, Hfr2.2]
      exact standDown_active_self _ tk
    have Hgt : get_target (mr_step dt o st).2 tk =
        get_target (standDown (l1.foldl (mr_processOne dt o) (st, 0)).1 tk) tk := by
      rw [Hstep, get_target_log_event, Hfold, Hmid2]
      exact Hfr2.1
    have Hfields := standDown_target_fields (l1.foldl (mr_processOne dt o) (st, 0)).1 tk
    refine ⟨Hga, by rw [Hgt]; exact Hfields.1, by rw [Hgt]; exact Hfields.2, ?_⟩
    have Htf0 : ∀ q ∈ st.targets, lookupA q.2 "ticker" = some (Val.s q.1) :=
      fun q hq => (HW q hq).1
    have Hin : ∀ p ∈ list_targets st, tickerOf p.1 p.2 ∈ st.targets.map Prod.fst := by
      intro p hp
      have hw := HW p (Hsub _ hp)
      rw [tickerOf_own p.1 p.1 p.2 hw.1 hw.2.2 hw.2.1]
      exact List.mem_map.mpr ⟨p, Hsub _ hp, rfl⟩
    have Hinv := mr_fold_inv dt o (list_targets st) (st, 0) Hin Htf0
    have Htgts : (mr_step dt o st).2.targets =
        ((list_targets st).foldl (mr_processOne dt o) (st, 0)).1.targets := rfl
    intro dt2 o2
    apply mr_step_noop
    intro p hp
    have hpm : p ∈ (mr_step dt o st).2.targets := List.take_subset 200 _ hp
    by_cases hk : p.1 = tk
    · left
      have hnd : ((mr_step dt o st).2.targets.map Prod.fst).Nodup := by
        rw [Htgts, Hinv.1]
        exact HN
      have hl : lookupA (mr_step dt o st).2.targets tk = some p.2 := by
        apply lookupA_of_mem_nodup _ _ _ hnd
        rw [← hk]
        exact hpm
      have hb : (some p.2).bind (fun d => lookupA d "active") = some (Val.b false) := by
        rw [← hl]
        show (get_target (mr_step dt o st).2 tk).bind (fun d => lookupA d "active") = _
        rw [Hgt]
        exact Hfields.2
      simp only [Option.some_bind] at hb
      unfold pyGetD
      rw [hb]
      rfl
    · right
      have htf2 : lookupA p.2 "ticker" = some (Val.s p.1) := by
        apply Hinv.2 p
        rw [← Htgts]
        exact hpm
      have hkeys : p.1 ∈ st.targets.map Prod.fst := by
        have hx : p.1 ∈ (mr_step dt o st).2.targets.map Prod.fst :=
          List.mem_map.mpr ⟨p, hpm, rfl⟩
        rw [Htgts, Hinv.1] at hx
        exact hx
      rcases List.mem_map.mp hkeys with ⟨q, hq, hfst⟩
      have hw := HW q hq
      rw [tickerOf_own p.1 p.1 p.2 htf2 (hfst ▸ hw.2.2) (hfst ▸ hw.2.1)]
      exact hk
  · intro hlt
    have Hmid2 : mr_processOne dt o (l1.foldl (mr_processOne dt o) (st, 0)) (tk, d0) =
        l1.foldl (mr_processOne dt o) (st, 0) := by
      rw [Hmid, if_neg (by simp [hlt])]
    have Hfr2 := mr_fold_frame dt o tk l2 (l1.foldl (mr_processOne dt o) (st, 0))
      (fun p hp => Hne12 p (Or.inr hp))
    constructor
    · rw [Hstep, get_target_log_event, Hfold, Hmid2, Hfr2.1, Hfr1.1]
      exact lookupA_of_mem_nodup _ _ _ HN (Hsub _ Hmem)
    · rw [Hstep, get_active_log_event, Hfold, Hmid2, Hfr2.2]
      exact Hga1

/-- C3 witness: at Monday 10:00 the 09:20 position is expired, so the
Readiness stage deletes the Active Position and marks the target
REMOVED/inactive. -/
theorem mr_step_active_position_witness :
    get_active (mr_step dtMon10 demoMr stExpired).2 "SPY" = none ∧
    (get_target (mr_step dtMon10 demoMr stExpired).2 "SPY").bind
      (fun d => lookupA d "state") = some (Val.s "REMOVED") ∧
    (get_target (mr_step dtMon10 demoMr stExpired).2 "SPY").bind
      (fun d => lookupA d "active") = some (Val.b false) :=
  ⟨((mr_step_active_position dtMon10 demoMr stExpired "SPY" spyTarget spyActive
      dtExpirySPY (by decide) (by decide) (by decide) (by decide) (by decide)
      (by decide) (by decide)).1 (by decide)).1,
   ((mr_step_active_position dtMon10 demoMr stExpired "SPY" spyTarget spyActive
      dtExpirySPY (by decide) (by decide) (by decide) (by decide) (by decide)
      (by decide) (by decide)).1 (by decide)).2.1,
   ((mr_step_active_position dtMon10 demoMr stExpired "SPY" spyTarget spyActive
      dtExpirySPY (by decide) (by decide) (by decide) (by decide) (by decide)
      (by decide) (by decide)).1 (by decide)).2.2.1⟩
